import Mathlib

set_option maxRecDepth 8000

/-!
Verification of the SCSL embedded record store (src/impl/scsl.py) against its
natural-language specification.  Python strings are modelled as their UTF-8
byte sequences (List Nat); Python ints as unbounded Int; Python floats as
their IEEE-754 bit patterns (Nat below 2 ^ 64), classified into
NaN / infinities / exact rationals for comparison; records (Table instances)
as tagged attribute maps carrying an object-identity token.  Fallible Python
code is modelled in the Except monad.
-/

namespace SCSL

/-- Error kinds raised by the Python implementation, one constructor per
distinct raise site or built-in exception shape. -/
inductive Err where
  | nullError        -- Field.validate: value is None and not nullable
  | typeMismatch     -- Field.validate / ArrayField.validate: isinstance failure
  | rangeError       -- IntegerField / FloatField bounds
  | lengthError      -- ArrayField length over max
  | enumMembership   -- EnumField.validate
  | unsupportedType  -- encode_value fallthrough
  | structError      -- struct.pack / struct.unpack argument or size failure
  | keyError         -- dict lookup failure (relations map, globals, fields)
  | attributeError   -- missing attribute (record.id, enum.values, record fields)
  | valueError       -- ValueError raise sites (RelationType, unknown item type)
  | notIterable      -- iterating or unpacking a non-iterable value
  | unpackMismatch   -- tuple unpacking arity mismatch
  | tableNotFound    -- Database.get / add_record: table does not exist
  | indexError       -- reading a byte past the end of the stream
  | isinstanceArg2   -- isinstance with a non-type second argument
  | jsonError        -- json.loads failure
  deriving DecidableEq

/-- Scalar values allowed inside a TableEnum mapping (integer or string). -/
inductive EnumScalar where
  | sInt (n : ℤ)
  | sStr (s : List Nat)
  deriving DecidableEq

/-- TableEnum: a named label-to-scalar mapping. -/
structure TableEnum where
  name : List Nat
  values : List (List Nat × EnumScalar)
  deriving DecidableEq

/-- RelationType enum from the source, with its string values. -/
inductive RelationType where
  | oneToOne | oneToMany | manyToMany
  deriving DecidableEq

/-- Python runtime types that appear as isinstance targets in the source. -/
inductive PyType where
  | pStr | pInt | pFloat | pBool | pList | pDate | pTime | pDateTime
  | pTable (tname : List Nat)
  deriving DecidableEq

/-- Target of a relation-like field: either a plain string name or a Table
class (carried by its name). -/
inductive TargetRef where
  | tStr (s : List Nat)
  | tClass (tname : List Nat)
  deriving DecidableEq

mutual
/-- Common keyword attributes read by Field.__init__ (primary_key, null,
blank, unique, default). -/
inductive FAttrs where
  | mk (primaryKey null blank unique : Bool) (dflt : Value)

/-- Closed set of field classes of the source, each carrying its
kind-specific construction data plus the common attributes. -/
inductive FieldKind where
  | stringF (maxLength : ℕ) (a : FAttrs)
  | intF (minV maxV : Option ℤ) (a : FAttrs)
  | floatF (minV maxV : Option ℕ) (a : FAttrs)
  | boolF (a : FAttrs)
  | dateF (a : FAttrs)
  | timeF (a : FAttrs)
  | datetimeF (a : FAttrs)
  | arrayF (item : PyType) (maxLength : Option ℕ) (a : FAttrs)
  | relationF (tgt : TargetRef) (rt : RelationType) (a : FAttrs)
  | fkF (tgt : TargetRef) (a : FAttrs)
  | mtmF (tgt : TargetRef) (a : FAttrs)
  | enumF (enum : Option TableEnum) (a : FAttrs)

/-- Python runtime values that flow through the store: strings are UTF-8
byte lists, floats are IEEE-754 bit patterns, time and datetime carry a
microsecond component, records are vObj with class name, class field list,
attribute map and an object-identity token. -/
inductive Value where
  | vStr (s : List Nat)
  | vInt (n : ℤ)
  | vFloat (bits : ℕ)
  | vBool (b : Bool)
  | vNone
  | vDate (y m d : ℕ)
  | vTime (h mi s us : ℕ)
  | vDateTime (y mo d h mi s us : ℕ)
  | vList (xs : List Value)
  | vObj (tname : List Nat) (fields : List (List Nat × FieldKind)) (attrs : List (List Nat × Value)) (oid : ℕ)
  | vTuple2 (a b : Value)
  | vEnumObj (e : TableEnum)
end

/-- Default attributes produced by Field.__init__ with no keyword arguments:
primary_key false, null true, blank false, unique false, default None. -/
def dAttrs : FAttrs := .mk false true false false .vNone

def FAttrs.null : FAttrs → Bool
  | .mk _ n _ _ _ => n

def FAttrs.dflt : FAttrs → Value
  | .mk _ _ _ _ d => d

def FieldKind.attrs : FieldKind → FAttrs
  | .stringF _ a => a
  | .intF _ _ a => a
  | .floatF _ _ a => a
  | .boolF a => a
  | .dateF a => a
  | .timeF a => a
  | .datetimeF a => a
  | .arrayF _ _ a => a
  | .relationF _ _ a => a
  | .fkF _ a => a
  | .mtmF _ a => a
  | .enumF _ a => a

/-- Classification of an IEEE-754 double by its 64-bit pattern. -/
inductive FClass where
  | nan | pinf | ninf | fin (q : ℚ)

/-- Decode a 64-bit pattern into NaN, an infinity, or its exact rational
value (sign, 11-bit exponent, 52-bit mantissa, big-endian convention of
struct pack with format d). -/
def fclassify (bits : ℕ) : FClass :=
  let e : ℕ := bits / 2 ^ 52 % 2 ^ 11
  let m : ℕ := bits % 2 ^ 52
  let neg := bits / 2 ^ 63 % 2 = 1
  if e = 2047 then
    if m = 0 then (if neg then .ninf else .pinf) else .nan
  else
    let mz : ℤ := if e = 0 then (m : ℤ) else (2 ^ 52 + m : ℤ)
    let ez : ℤ := (if e = 0 then 1 else (e : ℤ)) - 1075
    let q : ℚ := ((if neg then -mz else mz : ℤ) : ℚ) * (2 : ℚ) ^ ez
    .fin q

/-- IEEE comparison: less-than on bit patterns (false whenever either side
is NaN, as in Python float comparison). -/
def fltLt (a b : ℕ) : Bool :=
  match fclassify a, fclassify b with
  | .nan, _ => false
  | _, .nan => false
  | .ninf, .ninf => false
  | .ninf, _ => true
  | _, .ninf => false
  | .pinf, _ => false
  | _, .pinf => true
  | .fin x, .fin y => decide (x < y)

/-- Bit pattern of the double 0.0. -/
def f0bits : ℕ := 0

/-- Bit pattern of the double 2147483647.0. -/
def fMaxBits : ℕ := 0x41DFFFFFFFC00000

/-- Numeric view of int-like and bool values (Python bool is an int). -/
def intNumOf : Value → ℤ
  | .vInt n => n
  | .vBool b => if b then 1 else 0
  | _ => 0

def isNumV : Value → Bool
  | .vInt _ => true
  | .vBool _ => true
  | .vFloat _ => true
  | _ => false

/-- Python numeric equality across int, bool and float (exact, by value;
NaN unequal to everything including itself). -/
def numEq (a b : Value) : Bool :=
  match a, b with
  | .vFloat x, .vFloat y =>
    (match fclassify x, fclassify y with
     | .fin p, .fin q => decide (p = q)
     | .pinf, .pinf => true
     | .ninf, .ninf => true
     | _, _ => false)
  | .vFloat x, b =>
    (match fclassify x with
     | .fin p => decide (p = (intNumOf b : ℚ))
     | _ => false)
  | a, .vFloat y =>
    (match fclassify y with
     | .fin q => decide ((intNumOf a : ℚ) = q)
     | _ => false)
  | a, b => decide (intNumOf a = intNumOf b)

mutual
/-- Python equality on runtime values: structural for strings, dates, times,
lists and tuples, numeric across int / bool / float, identity (object token)
for records, false across unrelated types. -/
def pyEq : Value → Value → Bool
  | .vNone, .vNone => true
  | .vStr a, .vStr b => a == b
  | .vDate a b c, .vDate x y z => a == x && b == y && c == z
  | .vTime a b c d, .vTime x y z w => a == x && b == y && c == z && d == w
  | .vDateTime a b c d e f g, .vDateTime r s t u v w x =>
    a == r && b == s && c == t && d == u && e == v && f == w && g == x
  | .vList xs, .vList ys => pyEqList xs ys
  | .vTuple2 a b, .vTuple2 x y => pyEq a x && pyEq b y
  | .vObj _ _ _ o, .vObj _ _ _ o' => o == o'
  | .vEnumObj e, .vEnumObj e' => e == e'
  | a, b => if isNumV a && isNumV b then numEq a b else false

def pyEqList : List Value → List Value → Bool
  | [], [] => true
  | x :: xs, y :: ys => pyEq x y && pyEqList xs ys
  | _, _ => false
end

/-! UTF-8 byte sequences of the identifiers used by the development. -/

def nFlag : List Nat := [70, 108, 97, 103]
def nOn : List Nat := [111, 110]
def nUser : List Nat := [85, 115, 101, 114]
def nPost : List Nat := [80, 111, 115, 116]
def nGroup : List Nat := [71, 114, 111, 117, 112]
def nId : List Nat := [105, 100]
def nName : List Nat := [110, 97, 109, 101]
def nTitle : List Nat := [116, 105, 116, 108, 101]
def nCreator : List Nat := [99, 114, 101, 97, 116, 111, 114]
def nMembers : List Nat := [109, 101, 109, 98, 101, 114, 115]
def nA : List Nat := [65]
def nT : List Nat := [84]
def nG1 : List Nat := [103, 49]
def nBob : List Nat := [66, 111, 98]
def nAlice : List Nat := [65, 108, 105, 99, 101]
def nStringField : List Nat := [83, 116, 114, 105, 110, 103, 70, 105, 101, 108, 100]
def nIntegerField : List Nat := [73, 110, 116, 101, 103, 101, 114, 70, 105, 101, 108, 100]
def nFloatField : List Nat := [70, 108, 111, 97, 116, 70, 105, 101, 108, 100]
def nBooleanField : List Nat := [66, 111, 111, 108, 101, 97, 110, 70, 105, 101, 108, 100]
def nDateField : List Nat := [68, 97, 116, 101, 70, 105, 101, 108, 100]
def nTimeField : List Nat := [84, 105, 109, 101, 70, 105, 101, 108, 100]
def nDateTimeField : List Nat := [68, 97, 116, 101, 84, 105, 109, 101, 70, 105, 101, 108, 100]
def nRelationField : List Nat := [82, 101, 108, 97, 116, 105, 111, 110, 70, 105, 101, 108, 100]
def nArrayField : List Nat := [65, 114, 114, 97, 121, 70, 105, 101, 108, 100]
def nForeignKeyField : List Nat := [70, 111, 114, 101, 105, 103, 110, 75, 101, 121, 70, 105, 101, 108, 100]
def nManyToManyField : List Nat := [77, 97, 110, 121, 84, 111, 77, 97, 110, 121, 70, 105, 101, 108, 100]
def nEnumField : List Nat := [69, 110, 117, 109, 70, 105, 101, 108, 100]
def nOneToOne : List Nat := [79, 110, 101, 84, 111, 79, 110, 101]
def nOneToMany : List Nat := [79, 110, 101, 84, 111, 77, 97, 110, 121]
def nManyToMany : List Nat := [77, 97, 110, 121, 84, 111, 77, 97, 110, 121]
def nStrType : List Nat := [115, 116, 114]
def nIntType : List Nat := [105, 110, 116]
def nBoolType : List Nat := [98, 111, 111, 108]
def nFloatType : List Nat := [102, 108, 111, 97, 116]
def nListType : List Nat := [108, 105, 115, 116]

/-- String value of each RelationType member. -/
def RelationType.str : RelationType → List Nat
  | .oneToOne => nOneToOne
  | .oneToMany => nOneToMany
  | .manyToMany => nManyToMany

/-! Validation layer: Field.validate and its subclass overrides. -/

def isNoneV : Value → Bool
  | .vNone => true
  | _ => false

/-- Python isinstance over the modelled value universe, with the two
relevant subtype facts: bool is a subtype of int and datetime is a subtype
of date. -/
def isInst : PyType → Value → Bool
  | .pStr, .vStr _ => true
  | .pInt, .vInt _ => true
  | .pInt, .vBool _ => true
  | .pFloat, .vFloat _ => true
  | .pBool, .vBool _ => true
  | .pList, .vList _ => true
  | .pDate, .vDate _ _ _ => true
  | .pDate, .vDateTime _ _ _ _ _ _ _ => true
  | .pTime, .vTime _ _ _ _ => true
  | .pDateTime, .vDateTime _ _ _ _ _ _ _ => true
  | .pTable n, .vObj tn _ _ _ => n == tn
  | _, _ => false

/-- The field_type member set by each field constructor; for RelationField
the target itself is stored, so a string target makes the isinstance call
raise (isinstance with a non-type second argument). -/
def fieldTypeOf : FieldKind → Except Err PyType
  | .stringF _ _ => .ok .pStr
  | .intF _ _ _ => .ok .pInt
  | .floatF _ _ _ => .ok .pFloat
  | .boolF _ => .ok .pBool
  | .dateF _ => .ok .pDate
  | .timeF _ => .ok .pTime
  | .datetimeF _ => .ok .pDateTime
  | .arrayF _ _ _ => .ok .pList
  | .relationF (.tClass n) _ _ => .ok (.pTable n)
  | .relationF (.tStr _) _ _ => .error .isinstanceArg2
  | .fkF _ _ => .ok .pInt
  | .mtmF _ _ => .ok .pList
  | .enumF _ _ => .ok .pInt

/-- Field.validate of the base class: reject None unless nullable, then
check isinstance against field_type. -/
def base_validate (fk : FieldKind) (v : Value) : Except Err Value := do
  if isNoneV v && !fk.attrs.null then throw Err.nullError
  if !isNoneV v then do
    let t ← fieldTypeOf fk
    if !isInst t v then throw Err.typeMismatch
  pure v

def checkIntBounds (minV maxV : Option ℤ) (n : ℤ) : Except Err Unit := do
  (match minV with
   | some lo => if n < lo then throw Err.rangeError else pure ()
   | none => pure ())
  (match maxV with
   | some hi => if n > hi then throw Err.rangeError else pure ()
   | none => pure ())

def checkFloatBounds (minV maxV : Option ℕ) (bits : ℕ) : Except Err Unit := do
  (match minV with
   | some lo => if fltLt bits lo then throw Err.rangeError else pure ()
   | none => pure ())
  (match maxV with
   | some hi => if fltLt hi bits then throw Err.rangeError else pure ()
   | none => pure ())

def scalarToValue : EnumScalar → Value
  | .sInt n => .vInt n
  | .sStr s => .vStr s

/-- Full validate of each field class: the base check followed by the
subclass override.  The ISO-text re-parsing branches of DateField,
TimeField and DateTimeField are unreachable, because the base check has
already rejected any non-date value, so they add nothing here. -/
def field_validate (fk : FieldKind) (v : Value) : Except Err Value := do
  let v ← base_validate fk v
  if isNoneV v then pure v else
  match fk with
  | .intF lo hi _ => do checkIntBounds lo hi (intNumOf v); pure v
  | .floatF lo hi _ =>
    (match v with
     | .vFloat bits => do checkFloatBounds lo hi bits; pure v
     | _ => pure v)
  | .arrayF item maxLen _ =>
    (match v with
     | .vList xs => do
       (match maxLen with
        | some ml => if xs.length > ml then throw Err.lengthError else pure ()
        | none => pure ())
       if xs.all (fun x => isInst item x) then pure v else throw Err.typeMismatch
     | _ => pure v)
  | .enumF oe _ =>
    (match oe with
     | none => throw Err.attributeError
     | some e =>
       if e.values.any (fun p => pyEq v (scalarToValue p.2)) then pure v
       else throw Err.enumMembership)
  | _ => pure v

/-! Record construction: Table.__init__ and Table.__setattr__, which first
coerce ForeignKey and ManyToMany inputs and then validate. -/

/-- Ordered dictionary lookup (Python dict keyed by a string). -/
def dictGet {α : Type} (d : List (List Nat × α)) (k : List Nat) : Option α :=
  match d with
  | [] => none
  | (k', v) :: rest => if k' = k then some v else dictGet rest k

/-- Ordered dictionary update: an existing key keeps its position, a new
key is appended, as in Python dicts. -/
def dictSet {α : Type} (d : List (List Nat × α)) (k : List Nat) (v : α) : List (List Nat × α) :=
  match d with
  | [] => [(k, v)]
  | (k', v') :: rest => if k' = k then (k', v) :: rest else (k', v') :: dictSet rest k v

/-- The coercion value.id if isinstance(value, Table) else value applied to
ForeignKey inputs and to each ManyToMany element. -/
def coerceItem : Value → Except Err Value
  | .vObj _ _ attrs _ =>
    (match dictGet attrs nId with
     | some a => .ok a
     | none => .error .attributeError)
  | v => .ok v

/-- Python iteration over a value: lists yield their elements, strings
their one-character substrings, tuples their components; everything else
raises TypeError. -/
def pyIter : Value → Except Err (List Value)
  | .vList xs => .ok xs
  | .vStr s => .ok (s.map fun c => .vStr [c])
  | .vTuple2 a b => .ok [a, b]
  | _ => .error .notIterable

/-- The relation coercion step of Table.__init__ and Table.__setattr__:
ForeignKey inputs that are records are replaced by their id attribute;
ManyToMany inputs are iterated and each record element replaced by its id
attribute, always yielding a fresh list; all other field kinds pass their
input through unchanged (in particular RelationField). -/
def mapCoerce : List Value → Except Err (List Value)
  | [] => pure []
  | x :: xs => do
    let y ← coerceItem x
    let ys ← mapCoerce xs
    pure (y :: ys)

def coerce_for_field (fk : FieldKind) (v : Value) : Except Err Value :=
  match fk with
  | .fkF _ _ => coerceItem v
  | .mtmF _ _ => do
    let xs ← pyIter v
    let ys ← mapCoerce xs
    pure (.vList ys)
  | _ => pure v

/-- One attribute assignment through the validation path: coercion followed
by validate, shared by construction and later mutation. -/
def assignField (fk : FieldKind) (v : Value) : Except Err Value := do
  let v ← coerce_for_field fk v
  field_validate fk v

/-- Table.__init__: for each declared field, take the keyword argument or
the field default, then assign it through the validation path; the result
is a record object with the given identity token. -/
def table_init (tname : List Nat) (fields : List (List Nat × FieldKind)) (kwargs : List (List Nat × Value)) (oid : ℕ) : Except Err Value := do
  let attrs ← fields.mapM (fun kf => do
    let raw := (dictGet kwargs kf.1).getD kf.2.attrs.dflt
    let v ← assignField kf.2 raw
    pure (kf.1, v))
  pure (.vObj tname fields attrs oid)

/-! The Database container and its operations. -/

structure Database where
  tables : List (List Nat × List (List Nat × FieldKind))
  data : List (List Nat × List Value)
  relations : List (List Nat × List (Value × List Value))
  enums : List (List Nat × TableEnum)

def dbEmpty : Database := ⟨[], [], [], []⟩

def targetName : TargetRef → List Nat
  | .tStr s => s
  | .tClass n => n

/-- Join key of a many-to-many relation: owner name, underscore, target
name. -/
def joinKey (owner : List Nat) (tgt : TargetRef) : List Nat :=
  owner ++ [95] ++ targetName tgt

/-- Database.add_table: registers (or silently replaces) the table under
its class name, resets its record list to empty, and resets the relation
map entry of every ManyToMany field to an empty mapping. -/
def add_table (db : Database) (tname : List Nat) (fields : List (List Nat × FieldKind)) : Database :=
  let db := { db with
    tables := dictSet db.tables tname fields,
    data := dictSet db.data tname [] }
  fields.foldl (fun db kf =>
    match kf.2 with
    | .mtmF tgt _ => { db with relations := dictSet db.relations (joinKey tname tgt) [] }
    | _ => db) db

def add_enum (db : Database) (e : TableEnum) : Database :=
  { db with enums := dictSet db.enums e.name e }

def Value.objFields : Value → Except Err (List (List Nat × FieldKind))
  | .vObj _ fs _ _ => .ok fs
  | _ => .error .attributeError

def Value.objAttrs : Value → Except Err (List (List Nat × Value))
  | .vObj _ _ attrs _ => .ok attrs
  | _ => .error .attributeError

/-- Relation dictionary lookup, keyed by the owner id value with Python
equality. -/
def pyDictGet (d : List (Value × List Value)) (k : Value) : Option (List Value) :=
  match d with
  | [] => none
  | (k', v) :: rest => if pyEq k' k then some v else pyDictGet rest k

def pyDictSet (d : List (Value × List Value)) (k : Value) (v : List Value) : List (Value × List Value) :=
  match d with
  | [] => [(k, v)]
  | (k', v') :: rest => if pyEq k' k then (k', v) :: rest else (k', v') :: pyDictSet rest k v

/-- The per-field relation-map update of Database.add_record: the entry
under the join key for the record id is extended (not replaced) with the
elements of the stored field value. -/
def upd_relation (tname : List Nat) (attrs : List (List Nat × Value)) (db : Database) (k : List Nat) (tgt : TargetRef) : Except Err Database := do
  let idv ← (match dictGet attrs nId with
             | some a => pure a
             | none => throw Err.attributeError)
  let m ← (match dictGet db.relations (joinKey tname tgt) with
           | some m => pure m
           | none => throw Err.keyError)
  let fv ← (match dictGet attrs k with
            | some a => pure a
            | none => throw Err.attributeError)
  let items ← pyIter fv
  pure { db with relations :=
          (dictSet db.relations (joinKey tname tgt)
            (pyDictSet m idv ((pyDictGet m idv).getD [] ++ items))) }

/-- One step of the field loop of Database.add_record: ManyToMany fields
update the relation map, all other fields do nothing. -/
def add_record_step (tname : List Nat) (attrs : List (List Nat × Value)) (db : Database) (kf : List Nat × FieldKind) : Except Err Database :=
  match kf.2 with
  | .mtmF tgt _ => upd_relation tname attrs db kf.1 tgt
  | _ => pure db

/-- Database.add_record: raises when the table name is absent from the
data map, otherwise appends the record and runs the relation-map update
for every ManyToMany field of the record class. -/
def add_record (db : Database) (tname : List Nat) (r : Value) : Except Err Database := do
  match dictGet db.data tname with
  | none => throw Err.tableNotFound
  | some recs => do
    let db := { db with data := dictSet db.data tname (recs ++ [r]) }
    let fs ← r.objFields
    let attrs ← r.objAttrs
    fs.foldlM (add_record_step tname attrs) db

/-- Join keys of the ManyToMany fields of a field list, in order. -/
def mtmKeys (tname : List Nat) (fs : List (List Nat × FieldKind)) : List (List Nat) :=
  fs.filterMap (fun kf =>
    match kf.2 with
    | .mtmF tgt _ => some (joinKey tname tgt)
    | _ => none)

def isOkE {α : Type} : Except Err α → Bool
  | .ok _ => true
  | .error _ => false

/-- Executability condition of the relation-map update loop: for every
ManyToMany field, the record has an id attribute, the relation map holds
the join key, and the stored field value exists and is iterable. -/
def mtmCondB (db : Database) (tname : List Nat) (attrs : List (List Nat × Value)) : List (List Nat × FieldKind) → Bool
  | [] => true
  | (k, fk) :: rest =>
    (match fk with
     | .mtmF tgt _ =>
       (dictGet attrs nId).isSome &&
       (dictGet db.relations (joinKey tname tgt)).isSome &&
       (match dictGet attrs k with
        | some fa => isOkE (pyIter fa)
        | none => false)
     | _ => true) && mtmCondB db tname attrs rest

/-- One record against one criteria list: every named attribute must
compare equal under Python equality; evaluation short-circuits on the
first mismatch, and a missing attribute raises. -/
def matchesCriteria (r : Value) : List (List Nat × Value) → Except Err Bool
  | [] => pure true
  | c :: rest => do
    let attrs ← r.objAttrs
    let v ← (match dictGet attrs c.1 with
             | some v => pure v
             | none => throw Err.attributeError)
    if pyEq v c.2 then matchesCriteria r rest else pure false

def filterMatches (recs : List Value) (criteria : List (List Nat × Value)) : Except Err (List Value) :=
  match recs with
  | [] => pure []
  | r :: rest => do
    let b ← matchesCriteria r criteria
    let tail ← filterMatches rest criteria
    pure (if b then r :: tail else tail)

/-- Database.get: linear scan with the asymmetric collapsing of the
result (None for zero matches, the record itself for one, the list for
two or more). -/
def Database.get (db : Database) (tname : List Nat) (criteria : List (List Nat × Value)) : Except Err Value := do
  match dictGet db.tables tname with
  | none => throw Err.tableNotFound
  | some _ => do
    let recs ← (match dictGet db.data tname with
                | some recs => pure recs
                | none => throw Err.keyError)
    let ms ← filterMatches recs criteria
    match ms with
    | [r] => pure r
    | [] => pure Value.vNone
    | _ => pure (Value.vList ms)

/-! Binary codec.  Multi-byte integers are big-endian as produced by the
struct pack formats of the source. -/

def nDateType : List Nat := [100, 97, 116, 101]
def nTimeType : List Nat := [116, 105, 109, 101]
def nDatetimeType : List Nat := [100, 97, 116, 101, 116, 105, 109, 101]

/-- Big-endian byte expansion on k bytes. -/
def beBytes : ℕ → ℕ → List Nat
  | 0, _ => []
  | k + 1, n => beBytes k (n / 256) ++ [n % 256]

/-- struct.pack with format I: four big-endian bytes, failing outside the
uint32 range. -/
def pack_u32 (n : ℕ) : Except Err (List Nat) :=
  if n < 2 ^ 32 then .ok (beBytes 4 n) else .error .structError

/-- struct.pack with format q: eight big-endian bytes in two-complement
form, failing outside the int64 range. -/
def pack_i64 (n : ℤ) : Except Err (List Nat) :=
  if -2 ^ 63 ≤ n ∧ n < 2 ^ 63 then .ok (beBytes 8 (n % 2 ^ 64).toNat)
  else .error .structError

/-- encode_string: uint32 byte length followed by the UTF-8 bytes. -/
def encode_string (s : List Nat) : Except Err (List Nat) := do
  let l ← pack_u32 s.length
  pure (l ++ s)

mutual
/-- encode_value of the source.  The isinstance dispatch checks int before
bool, and Python bool is a subtype of int, so boolean values take the
integer branch (tag 2 with an eight-byte payload); the tag 4 branch of the
source is unreachable.  Likewise datetime is a subtype of date and is
matched inside the date branch, dropping microseconds; time drops
microseconds as well.  Tuples reach the fallthrough raise. -/
def encode_value : Value → Except Err (List Nat)
  | .vStr s => do pure (1 :: (← encode_string s))
  | .vInt n => do pure (2 :: (← pack_i64 n))
  | .vBool b => do pure (2 :: (← pack_i64 (if b then 1 else 0)))
  | .vFloat bits => pure (3 :: beBytes 8 bits)
  | .vNone => pure [5]
  | .vObj tn _ _ oid => do
    pure (6 :: ((← encode_string tn) ++ (← pack_i64 (oid : ℤ))))
  | .vDate y m d => do
    pure (7 :: ((← pack_u32 y) ++ (← pack_u32 m) ++ (← pack_u32 d)))
  | .vTime h mi s _us => do
    pure (8 :: ((← pack_u32 h) ++ (← pack_u32 mi) ++ (← pack_u32 s)))
  | .vDateTime y mo d h mi s _us => do
    pure (9 :: ((← pack_u32 y) ++ (← pack_u32 mo) ++ (← pack_u32 d) ++
      (← pack_u32 h) ++ (← pack_u32 mi) ++ (← pack_u32 s)))
  | .vList xs => do
    pure (10 :: ((← pack_u32 xs.length) ++ (← encode_value_list xs)))
  | .vEnumObj e => do pure (11 :: (← encode_string e.name))
  | .vTuple2 _ _ => .error .unsupportedType

def encode_value_list : List Value → Except Err (List Nat)
  | [] => pure []
  | x :: xs => do pure ((← encode_value x) ++ (← encode_value_list xs))
end

/-! JSON rendering and parsing of an enum value mapping, standing for
json.dumps and json.loads on a flat dictionary of integer or string
scalars. -/

def digitsAux : ℕ → ℕ → List Nat
  | 0, _ => []
  | _ + 1, 0 => []
  | f + 1, n => digitsAux f (n / 10) ++ [48 + n % 10]

def asciiDecimal (n : ℤ) : List Nat :=
  if n = 0 then [48]
  else if n < 0 then 45 :: digitsAux n.natAbs n.natAbs
  else digitsAux n.toNat n.toNat

def jsonScalar : EnumScalar → List Nat
  | .sInt n => asciiDecimal n
  | .sStr s => 34 :: (s ++ [34])

def jsonPairs : List (List Nat × EnumScalar) → List Nat
  | [] => []
  | [p] => (34 :: (p.1 ++ [34])) ++ [58, 32] ++ jsonScalar p.2
  | p :: rest =>
    (34 :: (p.1 ++ [34])) ++ [58, 32] ++ jsonScalar p.2 ++ [44, 32] ++ jsonPairs rest

def jsonDumps (vs : List (List Nat × EnumScalar)) : List Nat :=
  123 :: (jsonPairs vs ++ [125])

def skipWs : List Nat → List Nat
  | 32 :: rest => skipWs rest
  | 9 :: rest => skipWs rest
  | 10 :: rest => skipWs rest
  | 13 :: rest => skipWs rest
  | s => s

def takeJStr : List Nat → Option (List Nat × List Nat)
  | [] => none
  | 34 :: rest => some ([], rest)
  | c :: rest =>
    match takeJStr rest with
    | some (s, r) => some (c :: s, r)
    | none => none

def takeDigits : List Nat → (List Nat × List Nat)
  | [] => ([], [])
  | c :: rest =>
    if 48 ≤ c ∧ c ≤ 57 then
      let (d, r) := takeDigits rest
      (c :: d, r)
    else ([], c :: rest)

def natOfDigits (ds : List Nat) : ℕ := ds.foldl (fun acc d => acc * 10 + (d - 48)) 0

def parseScalar : List Nat → Except Err (EnumScalar × List Nat)
  | 34 :: r =>
    (match takeJStr r with
     | some (sv, r2) => .ok (.sStr sv, r2)
     | none => .error .jsonError)
  | 45 :: r =>
    (match takeDigits r with
     | ([], _) => .error .jsonError
     | (ds, r2) => .ok (.sInt (-(natOfDigits ds : ℤ)), r2))
  | s =>
    (match takeDigits s with
     | ([], _) => .error .jsonError
     | (ds, r2) => .ok (.sInt (natOfDigits ds), r2))

def jsonParseLoop : ℕ → List Nat → Except Err (List (List Nat × EnumScalar) × List Nat)
  | 0, _ => .error .jsonError
  | fuel + 1, s =>
    match skipWs s with
    | 34 :: r =>
      (match takeJStr r with
       | none => .error .jsonError
       | some (k, r1) =>
         (match skipWs r1 with
          | 58 :: r2 => do
            let (v, r3) ← parseScalar (skipWs r2)
            (match skipWs r3 with
             | 44 :: r4 => do
               let (rest, r5) ← jsonParseLoop fuel r4
               pure ((k, v) :: rest, r5)
             | 125 :: r4 => pure ([(k, v)], r4)
             | _ => Except.error Err.jsonError)
          | _ => Except.error Err.jsonError))
    | _ => .error .jsonError

def jsonLoads (s : List Nat) : Except Err (List (List Nat × EnumScalar)) :=
  match skipWs s with
  | 123 :: r =>
    (match skipWs r with
     | 125 :: r2 => if (skipWs r2).isEmpty then .ok [] else .error .jsonError
     | _ => do
       let (ps, r2) ← jsonParseLoop (s.length + 1) r
       if (skipWs r2).isEmpty then pure ps else .error .jsonError)
  | _ => .error .jsonError

/-! Serialization: enum section, table section, data section. -/

/-- Python class name of each field kind, as written by the table
section. -/
def fieldClassName : FieldKind → List Nat
  | .stringF _ _ => nStringField
  | .intF _ _ _ => nIntegerField
  | .floatF _ _ _ => nFloatField
  | .boolF _ => nBooleanField
  | .dateF _ => nDateField
  | .timeF _ => nTimeField
  | .datetimeF _ => nDateTimeField
  | .arrayF _ _ _ => nArrayField
  | .relationF _ _ _ => nRelationField
  | .fkF _ _ => nForeignKeyField
  | .mtmF _ _ => nManyToManyField
  | .enumF _ _ => nEnumField

/-- Python type name of an array item type. -/
def itemTypeName : PyType → List Nat
  | .pStr => nStrType
  | .pInt => nIntType
  | .pBool => nBoolType
  | .pFloat => nFloatType
  | .pList => nListType
  | .pDate => nDateType
  | .pTime => nTimeType
  | .pDateTime => nDatetimeType
  | .pTable n => n

/-- Kind-specific schema metadata written after the field class name. -/
def ser_field_extra (fk : FieldKind) : Except Err (List Nat) :=
  match fk with
  | .relationF tgt rt _ => do
    pure ((← encode_string (targetName tgt)) ++ (← encode_string rt.str))
  | .arrayF item maxLen _ => do
    pure ((← encode_string (itemTypeName item)) ++ (← pack_u32 (maxLen.getD 0)))
  | .fkF tgt _ => encode_string (targetName tgt)
  | .mtmF tgt _ => encode_string (targetName tgt)
  | .enumF oe _ =>
    (match oe with
     | some e => encode_string e.name
     | none => .error .attributeError)
  | _ => pure []

def ser_fields : List (List Nat × FieldKind) → Except Err (List Nat)
  | [] => pure []
  | (fname, fk) :: rest => do
    pure ((← encode_string fname) ++ (← encode_string (fieldClassName fk)) ++
      (← ser_field_extra fk) ++ (← ser_fields rest))

def ser_tables : List (List Nat × List (List Nat × FieldKind)) → Except Err (List Nat)
  | [] => pure []
  | (tname, fields) :: rest => do
    pure ((← encode_string tname) ++ (← pack_u32 fields.length) ++
      (← ser_fields fields) ++ (← ser_tables rest))

def ser_enums : List (List Nat × TableEnum) → Except Err (List Nat)
  | [] => pure []
  | (ename, e) :: rest => do
    pure ((← encode_string ename) ++ (← encode_string (jsonDumps e.values)) ++
      (← ser_enums rest))

def ser_rec_fields (attrs : List (List Nat × Value)) : List (List Nat × FieldKind) → Except Err (List Nat)
  | [] => pure []
  | (fname, _) :: rest => do
    let v ← (match dictGet attrs fname with
             | some v => pure v
             | none => throw Err.attributeError)
    pure ((← encode_string fname) ++ (← encode_value v) ++ (← ser_rec_fields attrs rest))

def ser_record (r : Value) : Except Err (List Nat) :=
  match r with
  | .vObj _ fs attrs _ => do
    pure ((← pack_u32 fs.length) ++ (← ser_rec_fields attrs fs))
  | _ => .error .attributeError

def ser_records : List Value → Except Err (List Nat)
  | [] => pure []
  | r :: rest => do pure ((← ser_record r) ++ (← ser_records rest))

def ser_data : List (List Nat × List Value) → Except Err (List Nat)
  | [] => pure []
  | (tname, recs) :: rest => do
    pure ((← encode_string tname) ++ (← pack_u32 recs.length) ++
      (← ser_records recs) ++ (← ser_data rest))

/-- Database.serialize_to_binary: enum section, table section, data
section, each prefixed by its uint32 count. -/
def serialize_to_binary (db : Database) : Except Err (List Nat) := do
  pure ((← pack_u32 db.enums.length) ++ (← ser_enums db.enums) ++
    (← pack_u32 db.tables.length) ++ (← ser_tables db.tables) ++
    (← pack_u32 db.data.length) ++ (← ser_data db.data))

/-! Deserialization. -/

/-- Big-endian value of a byte list. -/
def beVal (bs : List Nat) : ℕ := bs.foldl (fun acc b => acc * 256 + b) 0

/-- Read exactly k bytes as one big-endian unsigned value; struct.unpack
raises when the remaining slice is shorter. -/
def read_bytes (k : ℕ) (s : List Nat) : Except Err (ℕ × List Nat) :=
  if s.length < k then .error .structError
  else .ok (beVal (s.take k), s.drop k)

def read_u32 (s : List Nat) : Except Err (ℕ × List Nat) := read_bytes 4 s

def read_i64 (s : List Nat) : Except Err (ℤ × List Nat) := do
  let (n, r) ← read_bytes 8 s
  pure (if n < 2 ^ 63 then (n : ℤ) else (n : ℤ) - 2 ^ 64, r)

/-- decode_string: uint32 length then that many bytes; a short tail is
silently truncated by the Python slice, later reads then fail. -/
def decode_string (s : List Nat) : Except Err (List Nat × List Nat) := do
  let (len, r) ← read_u32 s
  pure (r.take len, r.drop len)

def isLeapYear (y : ℕ) : Bool := y % 4 = 0 && (y % 100 ≠ 0 || y % 400 = 0)

def daysInMonth (y m : ℕ) : ℕ :=
  if m = 2 then (if isLeapYear y then 29 else 28)
  else if m = 4 ∨ m = 6 ∨ m = 9 ∨ m = 11 then 30
  else 31

/-- Argument validation of the datetime.date constructor. -/
def validDate (y m d : ℕ) : Bool :=
  1 ≤ y && y ≤ 9999 && 1 ≤ m && m ≤ 12 && 1 ≤ d && d ≤ daysInMonth y m

/-- Argument validation of the datetime.time constructor. -/
def validTime (h mi s : ℕ) : Bool := h < 24 && mi < 60 && s < 60

/-- List payload of tag 10: decode the given count of values with the
supplied single-value decoder. -/
def decode_values_with (d1 : List Nat → Except Err (Value × List Nat)) : ℕ → List Nat → Except Err (List Value × List Nat)
  | 0, s => pure ([], s)
  | k + 1, s => do
    let (v, r) ← d1 s
    let (vs, r2) ← decode_values_with d1 k r
    pure (v :: vs, r2)

/-- One level of decode_value, the nested list case deferring to the
decoder of the previous fuel level. -/
def decode_value_step (d1 : List Nat → Except Err (Value × List Nat)) : List Nat → Except Err (Value × List Nat)
  | [] => .error .indexError
  | t :: s =>
    if t = 1 then do
      let (str, r) ← decode_string s
      pure (Value.vStr str, r)
    else if t = 2 then do
      let (n, r) ← read_i64 s
      pure (Value.vInt n, r)
    else if t = 3 then do
      let (bits, r) ← read_bytes 8 s
      pure (Value.vFloat bits, r)
    else if t = 4 then do
      let (n, r) ← read_bytes 1 s
      pure (Value.vBool (n ≠ 0), r)
    else if t = 5 then pure (Value.vNone, s)
    else if t = 6 then do
      let (tn, r) ← decode_string s
      let (oid, r2) ← read_i64 r
      pure (Value.vTuple2 (Value.vStr tn) (Value.vInt oid), r2)
    else if t = 7 then do
      let (y, r1) ← read_bytes 4 s
      let (mo, r2) ← read_bytes 4 r1
      let (d, r3) ← read_bytes 4 r2
      if validDate y mo d then pure (Value.vDate y mo d, r3)
      else throw Err.valueError
    else if t = 8 then do
      let (h, r1) ← read_bytes 4 s
      let (mi, r2) ← read_bytes 4 r1
      let (sec, r3) ← read_bytes 4 r2
      if validTime h mi sec then pure (Value.vTime h mi sec 0, r3)
      else throw Err.valueError
    else if t = 9 then do
      let (y, r1) ← read_bytes 4 s
      let (mo, r2) ← read_bytes 4 r1
      let (d, r3) ← read_bytes 4 r2
      let (h, r4) ← read_bytes 4 r3
      let (mi, r5) ← read_bytes 4 r4
      let (sec, r6) ← read_bytes 4 r5
      if validDate y mo d && validTime h mi sec then
        pure (Value.vDateTime y mo d h mi sec 0, r6)
      else throw Err.valueError
    else if t = 10 then do
      let (len, r) ← read_u32 s
      let (xs, r2) ← decode_values_with d1 len r
      pure (Value.vList xs, r2)
    else if t = 11 then do
      let (ename, r) ← decode_string s
      let (blob, r2) ← decode_string r
      let vs ← jsonLoads blob
      pure (Value.vEnumObj ⟨ename, vs⟩, r2)
    else throw Err.valueError

/-- decode_value of the source: one tag byte then the tagged payload.  The
fuel argument only bounds the nesting depth of tag 10 lists; every call
consumes at least the tag byte, so any fuel above the stream length is
enough. -/
def decode_value : ℕ → List Nat → Except Err (Value × List Nat)
  | 0, _ => .error .structError
  | fuel + 1, s => decode_value_step (decode_value fuel) s

/-- RelationType construction from its string value. -/
def rtypeOfString (s : List Nat) : Except Err RelationType :=
  if s = nOneToOne then .ok .oneToOne
  else if s = nOneToMany then .ok .oneToMany
  else if s = nManyToMany then .ok .manyToMany
  else .error .valueError

/-- Array item type resolution during decode.  At module level the
builtins lookup by getattr on a dict always yields None, so only
python_str_to_type applies: str, int and bool resolve, everything else
raises Unknown type. -/
def itemTypeOfName (s : List Nat) : Except Err PyType :=
  if s = nStrType then .ok .pStr
  else if s = nIntType then .ok .pInt
  else if s = nBoolType then .ok .pBool
  else .error .valueError

/-- The field classes reachable through the globals fallback of the table
section decoder followed by a no-argument construction, each with its
default attributes. -/
def knownFieldClass (s : List Nat) : Except Err FieldKind :=
  if s = nStringField then .ok (.stringF 255 dAttrs)
  else if s = nIntegerField then .ok (.intF (some 0) (some 2147483647) dAttrs)
  else if s = nFloatField then .ok (.floatF (some f0bits) (some fMaxBits) dAttrs)
  else if s = nBooleanField then .ok (.boolF dAttrs)
  else if s = nDateField then .ok (.dateF dAttrs)
  else if s = nTimeField then .ok (.timeF dAttrs)
  else if s = nDateTimeField then .ok (.datetimeF dAttrs)
  else .error .keyError

/-- Field loop of the table section. -/
def dec_fields (db : Database) : ℕ → List (List Nat × FieldKind) → List Nat → Except Err (List (List Nat × FieldKind) × List Nat)
  | 0, acc, s => pure (acc, s)
  | k + 1, acc, s => do
    let (fname, r) ← decode_string s
    let (ftype, r2) ← decode_string r
    let (fk, r') ←
      (if ftype = nRelationField then do
        let (t, r3) ← decode_string r2
        let (rts, r4) ← decode_string r3
        let rt ← rtypeOfString rts
        pure (FieldKind.relationF (.tStr t) rt dAttrs, r4)
      else if ftype = nArrayField then do
        let (itn, r3) ← decode_string r2
        let item ← itemTypeOfName itn
        let (ml, r4) ← read_u32 r3
        pure (FieldKind.arrayF item (if ml > 0 then some ml else none) dAttrs, r4)
      else if ftype = nForeignKeyField then do
        let (t, r3) ← decode_string r2
        pure (FieldKind.fkF (.tStr t) dAttrs, r3)
      else if ftype = nManyToManyField then do
        let (t, r3) ← decode_string r2
        pure (FieldKind.mtmF (.tStr t) dAttrs, r3)
      else if ftype = nEnumField then do
        let (en, r3) ← decode_string r2
        pure (FieldKind.enumF ((dictGet db.enums en).map id) dAttrs, r3)
      else do
        let fk ← knownFieldClass ftype
        pure (fk, r2))
    dec_fields db k (dictSet acc fname fk) r'

/-- Table loop of the table section. -/
def dec_tables : ℕ → Database → List Nat → Except Err (Database × List Nat)
  | 0, db, s => pure (db, s)
  | k + 1, db, s => do
    let (tname, r) ← decode_string s
    let (nf, r2) ← read_u32 r
    let (fields, r3) ← dec_fields db nf [] r2
    dec_tables k (add_table db tname fields) r3

/-- Enum loop of the enum section. -/
def dec_enums : ℕ → Database → List Nat → Except Err (Database × List Nat)
  | 0, db, s => pure (db, s)
  | k + 1, db, s => do
    let (ename, r) ← decode_string s
    let (blob, r2) ← decode_string r
    let vs ← jsonLoads blob
    dec_enums k (add_enum db ⟨ename, vs⟩) r2

/-- Python unpacking of a value into exactly two names: tuples and
two-element lists unpack by position, a two-character string unpacks into
its characters, everything else raises. -/
def unpack2 : Value → Except Err (Value × Value)
  | .vTuple2 a b => .ok (a, b)
  | .vStr [c1, c2] => .ok (.vStr [c1], .vStr [c2])
  | .vStr _ => .error .unpackMismatch
  | .vList [a, b] => .ok (a, b)
  | .vList _ => .error .unpackMismatch
  | _ => .error .notIterable

/-- Point lookups of the decoded many-to-many ids against the target
table, one Database.get per id. -/
def mtm_resolve (db : Database) (tname : List Nat) : List Value → Except Err (List Value)
  | [] => pure []
  | rid :: rest => do
    let y ← db.get tname [(nId, rid)]
    let ys ← mtm_resolve db tname rest
    pure (y :: ys)

/-- Per-field post-processing of a decoded value before record
construction: DateTimeField values are recombined with midnight (the
isinstance check against date also matches datetime, so the time-of-day
component is always wiped); ForeignKeyField values are unpacked as a
name-and-id pair and resolved through Database.get; ManyToManyField
values are iterated and each id resolved through Database.get. -/
def dec_field_value (db : Database) (fk : FieldKind) (v : Value) : Except Err Value :=
  match fk with
  | .datetimeF _ =>
    (match v with
     | .vDateTime y mo d _ _ _ _ => pure (.vDateTime y mo d 0 0 0 0)
     | .vDate y mo d => pure (.vDateTime y mo d 0 0 0 0)
     | _ => pure v)
  | .fkF _ _ => do
    let (tn, rid) ← unpack2 v
    (match tn with
     | .vStr s => db.get s [(nId, rid)]
     | _ => throw Err.tableNotFound)
  | .mtmF tgt _ => do
    let items ← pyIter v
    let ys ← mtm_resolve db (targetName tgt) items
    pure (.vList ys)
  | _ => pure v

/-- Field loop of one record of the data section. -/
def dec_rec_fields (db : Database) (tname : List Nat) (fuel : ℕ) : ℕ → List (List Nat × Value) → List Nat → Except Err (List (List Nat × Value) × List Nat)
  | 0, acc, s => pure (acc, s)
  | k + 1, acc, s => do
    let (fname, r) ← decode_string s
    let (v, r2) ← decode_value fuel r
    let tfields ← (match dictGet db.tables tname with
                   | some fs => pure fs
                   | none => throw Err.keyError)
    let fk ← (match dictGet tfields fname with
              | some fk => pure fk
              | none => throw Err.keyError)
    let v2 ← dec_field_value db fk v
    dec_rec_fields db tname fuel k (dictSet acc fname v2) r2

/-- Record loop of one table of the data section; oid numbers the decoded
record objects. -/
def dec_records (tname : List Nat) (fuel : ℕ) : ℕ → Database → ℕ → List Nat → Except Err (Database × ℕ × List Nat)
  | 0, db, oid, s => pure (db, oid, s)
  | k + 1, db, oid, s => do
    let (nf, r) ← read_u32 s
    let (rd, r2) ← dec_rec_fields db tname fuel nf [] r
    let tfields ← (match dictGet db.tables tname with
                   | some fs => pure fs
                   | none => throw Err.keyError)
    let robj ← table_init tname tfields rd oid
    let db2 ← add_record db tname robj
    dec_records tname fuel k db2 (oid + 1) r2

/-- Table loop of the data section. -/
def dec_data (fuel : ℕ) : ℕ → Database → ℕ → List Nat → Except Err (Database × ℕ × List Nat)
  | 0, db, oid, s => pure (db, oid, s)
  | k + 1, db, oid, s => do
    let (tname, r) ← decode_string s
    let (nrec, r2) ← read_u32 r
    let (db2, oid2, r3) ← dec_records tname fuel nrec db oid r2
    dec_data fuel k db2 oid2 r3

/-- Database.deserialize_from_binary: enum section, table section, data
section, decoded in that order against a fresh database. -/
def deserialize_from_binary (bytes : List Nat) : Except Err Database := do
  let fuel := bytes.length + 1
  let (ne, r) ← read_u32 bytes
  let (db, r2) ← dec_enums ne dbEmpty r
  let (nt, r3) ← read_u32 r2
  let (db2, r4) ← dec_tables nt db r3
  let (nd, r5) ← read_u32 r4
  let (db3, _, _) ← dec_data fuel nd db2 0 r5
  pure db3

/-! Concrete scenario data used by the theorems below. -/

/-- Attributes of a field constructed with primary_key set. -/
def pkAttrs : FAttrs := .mk true true false false .vNone

/-- IntegerField constructed with no explicit bounds. -/
def IntegerFieldDefault : FieldKind := .intF (some 0) (some 2147483647) dAttrs

/-- FloatField constructed with no explicit bounds. -/
def FloatFieldDefault : FieldKind := .floatF (some f0bits) (some fMaxBits) dAttrs

/-- A table with a single boolean field. -/
def flagFields : List (List Nat × FieldKind) := [(nOn, .boolF dAttrs)]

/-- Database holding one record with the boolean value True. -/
def dbBool : Except Err Database := do
  let db := add_table dbEmpty nFlag flagFields
  let r ← table_init nFlag flagFields [(nOn, .vBool true)] 1
  add_record db nFlag r

/-- User table of the cross-table scenario: integer primary key and a
string name. -/
def userFields : List (List Nat × FieldKind) :=
  [(nId, .intF (some 0) (some 2147483647) pkAttrs),
   (nName, .stringF 255 dAttrs)]

/-- Post table of the cross-table scenario: integer primary key, string
title, foreign key to User. -/
def postFields : List (List Nat × FieldKind) :=
  [(nId, .intF (some 0) (some 2147483647) pkAttrs),
   (nTitle, .stringF 255 dAttrs),
   (nCreator, .fkF (.tClass nUser) dAttrs)]

/-- Cross-table scenario with User data preceding Post data: one user
(id 1, name A) and one post (id 1, title T, creator the user). -/
def dbCross : Except Err Database := do
  let db := add_table (add_table dbEmpty nUser userFields) nPost postFields
  let u ← table_init nUser userFields [(nId, .vInt 1), (nName, .vStr nA)] 11
  let db ← add_record db nUser u
  let p ← table_init nPost postFields
    [(nId, .vInt 1), (nTitle, .vStr nT), (nCreator, u)] 12
  add_record db nPost p

/-- The same scenario with the table-registration order reversed, so the
Post table precedes the User table in the data section of the stream. -/
def dbCrossRev : Except Err Database := do
  let db := add_table (add_table dbEmpty nPost postFields) nUser userFields
  let u ← table_init nUser userFields [(nId, .vInt 1), (nName, .vStr nA)] 11
  let db ← add_record db nUser u
  let p ← table_init nPost postFields
    [(nId, .vInt 1), (nTitle, .vStr nT), (nCreator, u)] 12
  add_record db nPost p

/-- Group table with a many-to-many members field targeting User. -/
def groupFields : List (List Nat × FieldKind) :=
  [(nId, .intF (some 0) (some 2147483647) pkAttrs),
   (nName, .stringF 255 dAttrs),
   (nMembers, .mtmF (.tClass nUser) dAttrs)]

/-- Database after inserting the same Group record (id 1, members the
single user with id 1) twice. -/
def dbGroupTwice : Except Err Database := do
  let db := add_table (add_table dbEmpty nUser userFields) nGroup groupFields
  let u ← table_init nUser userFields [(nId, .vInt 1), (nName, .vStr nAlice)] 21
  let db ← add_record db nUser u
  let g ← table_init nGroup groupFields
    [(nId, .vInt 1), (nName, .vStr nG1), (nMembers, .vList [u])] 22
  let db ← add_record db nGroup g
  add_record db nGroup g

/-- Database after inserting the Group record once. -/
def dbGroupOnce : Except Err Database := do
  let db := add_table (add_table dbEmpty nUser userFields) nGroup groupFields
  let u ← table_init nUser userFields [(nId, .vInt 1), (nName, .vStr nAlice)] 21
  let db ← add_record db nUser u
  let g ← table_init nGroup groupFields
    [(nId, .vInt 1), (nName, .vStr nG1), (nMembers, .vList [u])] 22
  add_record db nGroup g

/-- Database with one User record, used by the re-registration scenario. -/
def dbReg : Except Err Database := do
  let db := add_table dbEmpty nUser userFields
  let u ← table_init nUser userFields [(nId, .vInt 1), (nName, .vStr nAlice)] 31
  add_record db nUser u

/-- Two distinct User records that share the name Bob, as stored records. -/
def recBob1 : Value :=
  .vObj nUser userFields [(nId, .vInt 1), (nName, .vStr nBob)] 41

def recBob2 : Value :=
  .vObj nUser userFields [(nId, .vInt 2), (nName, .vStr nBob)] 42

def recAlice : Value :=
  .vObj nUser userFields [(nId, .vInt 3), (nName, .vStr nAlice)] 43

/-- A concrete store with three User records, two of them named Bob. -/
def dbScan : Database :=
  { tables := [(nUser, userFields)],
    data := [(nUser, [recBob1, recBob2, recAlice])],
    relations := [],
    enums := [] }

/-- A User record viewed as a value, with id attribute 1 and identity
token 7, used by the relation-storage scenario. -/
def uObjC8 : Value := .vObj nUser userFields [(nId, .vInt 1), (nName, .vStr nA)] 7

/-- RelationField with a class target, as declared in the source test
schemas. -/
def relUserField : FieldKind := .relationF (.tClass nUser) .oneToOne dAttrs

def isObjV : Value → Bool
  | .vObj _ _ _ _ => true
  | _ => false

/-- Database with User and Group tables registered, Group holding a
many-to-many members field, used by the add_record witness. -/
def dbGW : Database := add_table (add_table dbEmpty nUser userFields) nGroup groupFields

def gwAttrs : List (List Nat × Value) :=
  [(nId, .vInt 1), (nName, .vStr nG1), (nMembers, .vList [.vInt 1])]

def recGW : Value := .vObj nGroup groupFields gwAttrs 50


/-! Theorems settling the claims, with shared helper lemmas first. -/

lemma fclassify_f0 : fclassify f0bits = .fin 0 := by
  unfold fclassify f0bits
  norm_num

lemma fclassify_fMax : fclassify fMaxBits = .fin 2147483647 := by
  unfold fclassify fMaxBits
  norm_num

/-- Bit pattern of the double -1.0 classifies as the rational -1. -/
lemma fclassify_neg1 : fclassify 0xBFF0000000000000 = .fin (-1) := by
  unfold fclassify
  norm_num

/-- Sequencing a unit-valued check before a result: success of the whole
means success of the result. -/
lemma except_seq_ok {α : Type} {m : Except Err Unit} {k : Except Err α} {w : α}
    (h : (do m; k : Except Err α) = .ok w) : k = .ok w := by
  cases m with
  | error e => simp [Bind.bind, Except.bind] at h
  | ok u => simpa [Bind.bind, Except.bind] using h

/-- Successful base validation returns the input unchanged, and the input
was either None (accepted as nullable) or an instance of the field type. -/
lemma base_validate_ok {fk : FieldKind} {v w : Value}
    (h : base_validate fk v = .ok w) :
    w = v ∧ (isNoneV v = true ∨ ∃ t, fieldTypeOf fk = .ok t ∧ isInst t v = true) := by
  unfold base_validate at h
  by_cases hA : (isNoneV v && !(fk.attrs.null)) = true
  · simp [hA, Bind.bind, Except.bind, throw, throwThe, MonadExceptOf.throw] at h
  · simp only [hA, Bind.bind, Except.bind, if_false, Bool.false_eq_true, ite_false] at h
    by_cases hn : isNoneV v = true
    · simp [hn, pure, Except.pure] at h
      exact ⟨h.symm, Or.inl hn⟩
    · simp only [hn, Bool.false_eq_true, ite_false, ite_true, Bool.not_false, Bool.not_true] at h
      cases hft : fieldTypeOf fk with
      | error e => rw [hft] at h; simp [Bind.bind, Except.bind, pure, Except.pure] at h
      | ok t =>
        rw [hft] at h
        by_cases hi : isInst t v = true
        · simp [hi, Bind.bind, Except.bind, pure, Except.pure] at h
          exact ⟨h.symm, Or.inr ⟨t, rfl, hi⟩⟩
        · simp [hi, Bind.bind, Except.bind, pure, Except.pure, throw, throwThe,
            MonadExceptOf.throw] at h

/-- Successful full validation returns the input unchanged (the value is
never transformed: the ISO re-parsing branches are unreachable). -/
lemma field_validate_ok {fk : FieldKind} {v w : Value}
    (h : field_validate fk v = .ok w) : w = v := by
  unfold field_validate at h
  cases hb : base_validate fk v with
  | error e => rw [hb] at h; simp [Bind.bind, Except.bind] at h
  | ok v1 =>
    have hv1 : v1 = v := (base_validate_ok hb).1
    subst hv1
    rw [hb] at h
    simp only [Bind.bind, Except.bind] at h
    by_cases hn : isNoneV v1 = true
    · simp only [hn, ite_true] at h
      simpa [pure, Except.pure] using h.symm
    · simp only [hn, Bool.false_eq_true, ite_false] at h
      cases fk with
      | intF lo hi a =>
        have := except_seq_ok h
        simpa [pure, Except.pure] using this.symm
      | floatF lo hi a =>
        cases v1 <;>
          first
          | (have hsq := except_seq_ok h; simpa [pure, Except.pure] using hsq.symm)
          | simpa [pure, Except.pure] using h.symm
      | arrayF item ml a =>
        cases v1 <;>
          try simpa [pure, Except.pure] using h.symm
        next xs =>
          have h2 := except_seq_ok h
          by_cases hall : (xs.all fun x => isInst item x) = true
          · rw [hall] at h2
            simpa [pure, Except.pure] using h2.symm
          · simp only [hall, Bool.false_eq_true, ite_false] at h2
            simp [throw, throwThe, MonadExceptOf.throw] at h2
      | enumF oe a =>
        cases oe with
        | none => simp [throw, throwThe, MonadExceptOf.throw] at h
        | some e =>
          replace h : (if (e.values.any fun p => pyEq v1 (scalarToValue p.2)) = true
                       then (pure v1 : Except Err Value)
                       else throw Err.enumMembership) = Except.ok w := h
          by_cases hmem : (e.values.any fun p => pyEq v1 (scalarToValue p.2)) = true
          · rw [hmem] at h
            simpa [pure, Except.pure] using h.symm
          · simp only [hmem, Bool.false_eq_true, ite_false] at h
            simp [throw, throwThe, MonadExceptOf.throw] at h
      | stringF ml a => simpa [pure, Except.pure] using h.symm
      | boolF a => simpa [pure, Except.pure] using h.symm
      | dateF a => simpa [pure, Except.pure] using h.symm
      | timeF a => simpa [pure, Except.pure] using h.symm
      | datetimeF a => simpa [pure, Except.pure] using h.symm
      | relationF tgt rt a => simpa [pure, Except.pure] using h.symm
      | fkF tgt a => simpa [pure, Except.pure] using h.symm
      | mtmF tgt a => simpa [pure, Except.pure] using h.symm

/-- Successful full validation implies successful base validation. -/
lemma field_validate_ok_base {fk : FieldKind} {v w : Value}
    (h : field_validate fk v = .ok w) : base_validate fk v = .ok v := by
  unfold field_validate at h
  cases hb : base_validate fk v with
  | error e => rw [hb] at h; simp [Bind.bind, Except.bind] at h
  | ok v1 => exact congrArg Except.ok (base_validate_ok hb).1

/-- Values that pass the isinstance int check are never record objects. -/
lemma isInst_pInt_not_obj {v : Value} (h : isInst .pInt v = true) : isObjV v = false := by
  cases v <;> simp [isInst, isObjV] at h ⊢

/-- Success of the element-wise coercion yields the pointwise coercion
relation. -/
lemma mapCoerce_forall2 : ∀ {xs ys : List Value}, mapCoerce xs = .ok ys →
    List.Forall₂ (fun x y => coerceItem x = .ok y) xs ys := by
  intro xs
  induction xs with
  | nil =>
    intro ys h
    simp only [mapCoerce, pure, Except.pure, Except.ok.injEq] at h
    subst h
    exact .nil
  | cons x xt ih =>
    intro ys h
    simp only [mapCoerce, Bind.bind, Except.bind] at h
    cases hc : coerceItem x with
    | error e => rw [hc] at h; simp at h
    | ok y =>
      rw [hc] at h
      cases hm : mapCoerce xt with
      | error e => rw [hm] at h; simp at h
      | ok yt =>
        rw [hm] at h
        simp only [pure, Except.pure, Except.ok.injEq] at h
        subst h
        exact .cons hc (ih hm)

lemma dictGet_dictSet {α : Type} (d : List (List Nat × α)) (k k2 : List Nat) (v : α) :
    dictGet (dictSet d k v) k2 = if k = k2 then some v else dictGet d k2 := by
  induction d with
  | nil =>
    by_cases h : k = k2 <;> simp [dictSet, dictGet, h]
  | cons p rest ih =>
    obtain ⟨k1, v1⟩ := p
    by_cases h1 : k1 = k
    · subst h1
      by_cases h2 : k1 = k2 <;> simp [dictSet, dictGet, h2]
    · by_cases h2 : k1 = k2
      · subst h2
        have hne : ¬k = k1 := fun hh => h1 hh.symm
        simp [dictSet, dictGet, h1, hne]
      · simp [dictSet, dictGet, h1, h2, ih]

lemma pyDictGet_pyDictSet_self (m : List (Value × List Value)) (k : Value) (L : List Value)
    (hk : pyEq k k = true) : pyDictGet (pyDictSet m k L) k = some L := by
  induction m with
  | nil => simp [pyDictSet, pyDictGet, hk]
  | cons p rest ih =>
    obtain ⟨k1, v1⟩ := p
    by_cases h1 : pyEq k1 k = true
    · simp [pyDictSet, pyDictGet, h1]
    · simp [pyDictSet, pyDictGet, h1, ih]

lemma pyIter_err {v : Value} {e : Err} (h : pyIter v = .error e) : e = .notIterable := by
  cases v <;> simp [pyIter] at h <;> exact h.symm

lemma upd_relation_eq (tname : List Nat) (attrs : List (List Nat × Value)) (db : Database)
    (k : List Nat) (tgt : TargetRef) (idv fa : Value)
    (m : List (Value × List Value)) (items : List Value)
    (hid : dictGet attrs nId = some idv)
    (hm : dictGet db.relations (joinKey tname tgt) = some m)
    (hfa : dictGet attrs k = some fa)
    (hit : pyIter fa = .ok items) :
    upd_relation tname attrs db k tgt =
      .ok { db with relations :=
              (dictSet db.relations (joinKey tname tgt)
                (pyDictSet m idv ((pyDictGet m idv).getD [] ++ items))) } := by
  unfold upd_relation
  rw [hid, hm, hfa]
  simp [Bind.bind, Except.bind, pure, Except.pure, hit]

lemma upd_relation_err {tname k : List Nat} {attrs : List (List Nat × Value)}
    {db : Database} {tgt : TargetRef} {e : Err}
    (h : upd_relation tname attrs db k tgt = .error e) : e ≠ Err.tableNotFound := by
  intro he
  subst he
  cases hid : dictGet attrs nId with
  | none =>
    simp [upd_relation, hid, Bind.bind, Except.bind, pure, Except.pure,
      throw, throwThe, MonadExceptOf.throw] at h
  | some idv =>
    cases hm : dictGet db.relations (joinKey tname tgt) with
    | none =>
      simp [upd_relation, hid, hm, Bind.bind, Except.bind, pure, Except.pure,
        throw, throwThe, MonadExceptOf.throw] at h
    | some m =>
      cases hfa : dictGet attrs k with
      | none =>
        simp [upd_relation, hid, hm, hfa, Bind.bind, Except.bind, pure, Except.pure,
          throw, throwThe, MonadExceptOf.throw] at h
      | some fa =>
        cases hit : pyIter fa with
        | error e2 =>
          have : e2 = .notIterable := pyIter_err hit
          subst this
          simp [upd_relation, hid, hm, hfa, hit, Bind.bind, Except.bind, pure, Except.pure,
            throw, throwThe, MonadExceptOf.throw] at h
        | ok items =>
          simp [upd_relation, hid, hm, hfa, hit, Bind.bind, Except.bind, pure, Except.pure,
            throw, throwThe, MonadExceptOf.throw] at h

lemma mtmCondB_mono (db db2 : Database) (tname : List Nat) (attrs : List (List Nat × Value))
    (hrel : ∀ jk, (dictGet db.relations jk).isSome → (dictGet db2.relations jk).isSome) :
    ∀ fs, mtmCondB db tname attrs fs = true → mtmCondB db2 tname attrs fs = true := by
  intro fs
  induction fs with
  | nil => intro h; rfl
  | cons p rest ih =>
    obtain ⟨k, fk⟩ := p
    intro h
    simp only [mtmCondB, Bool.and_eq_true] at h ⊢
    refine ⟨?_, ih h.2⟩
    cases fk <;> try rfl
    next tgt a =>
      simp only [Bool.and_eq_true] at h ⊢
      exact ⟨⟨h.1.1.1, hrel _ h.1.1.2⟩, h.1.2⟩

lemma mem_mtmKeys {tname : List Nat} {fs : List (List Nat × FieldKind)}
    {k : List Nat} {tgt : TargetRef} {a : FAttrs}
    (h : (k, FieldKind.mtmF tgt a) ∈ fs) : joinKey tname tgt ∈ mtmKeys tname fs := by
  unfold mtmKeys
  exact List.mem_filterMap.mpr ⟨(k, .mtmF tgt a), h, rfl⟩

lemma fold_mtm_spec (tname : List Nat) (attrs : List (List Nat × Value)) :
    ∀ (fs : List (List Nat × FieldKind)) (db : Database),
      mtmCondB db tname attrs fs = true →
      ∃ db', fs.foldlM (add_record_step tname attrs) db = .ok db' ∧
        db'.data = db.data ∧ db'.tables = db.tables ∧ db'.enums = db.enums ∧
        (∀ jk, jk ∉ mtmKeys tname fs → dictGet db'.relations jk = dictGet db.relations jk) ∧
        (∀ jk, (dictGet db.relations jk).isSome → (dictGet db'.relations jk).isSome) := by
  intro fs
  induction fs with
  | nil =>
    intro db _
    exact ⟨db, rfl, rfl, rfl, rfl, fun _ _ => rfl, fun _ h => h⟩
  | cons p rest ih =>
    obtain ⟨k0, fk0⟩ := p
    intro db hcond
    simp only [mtmCondB, Bool.and_eq_true] at hcond
    obtain ⟨hhead, hrest⟩ := hcond
    cases fk0
    case mtmF tgt a =>
      simp only [Bool.and_eq_true] at hhead
      obtain ⟨⟨hid1, hm1⟩, hfa1⟩ := hhead
      obtain ⟨idv, hid⟩ := Option.isSome_iff_exists.mp hid1
      obtain ⟨m, hm⟩ := Option.isSome_iff_exists.mp hm1
      cases hfa : dictGet attrs k0 with
      | none => rw [hfa] at hfa1; simp at hfa1
      | some fa =>
        rw [hfa] at hfa1
        replace hfa1 : isOkE (pyIter fa) = true := hfa1
        cases hit : pyIter fa with
        | error e => rw [hit] at hfa1; simp [isOkE] at hfa1
        | ok items =>
          have hstep : add_record_step tname attrs db (k0, .mtmF tgt a) =
              .ok { db with relations :=
                      (dictSet db.relations (joinKey tname tgt)
                        (pyDictSet m idv ((pyDictGet m idv).getD [] ++ items))) } := by
            simp only [add_record_step]
            exact upd_relation_eq tname attrs db k0 tgt idv fa m items hid hm hfa hit
          have hpres : ∀ jk, (dictGet db.relations jk).isSome →
              (dictGet (dictSet db.relations (joinKey tname tgt)
                (pyDictSet m idv ((pyDictGet m idv).getD [] ++ items))) jk).isSome := by
            intro jk hj
            rw [dictGet_dictSet]
            by_cases hjk : joinKey tname tgt = jk
            · simp [hjk]
            · simpa [hjk] using hj
          obtain ⟨db', hfold, hdata, htab, henu, hframe, hsome⟩ :=
            ih { db with relations :=
                  (dictSet db.relations (joinKey tname tgt)
                    (pyDictSet m idv ((pyDictGet m idv).getD [] ++ items))) }
              (mtmCondB_mono db _ tname attrs hpres rest hrest)
          refine ⟨db', ?_, hdata, htab, henu, ?_, ?_⟩
          · simp only [List.foldlM_cons, hstep, Bind.bind, Except.bind]
            exact hfold
          · intro jk hjk
            simp only [mtmKeys, List.filterMap_cons] at hjk
            rw [List.mem_cons] at hjk
            push_neg at hjk
            rw [hframe jk hjk.2]
            rw [dictGet_dictSet]
            have : ¬joinKey tname tgt = jk := fun hh => hjk.1 hh.symm
            simp [this]
          · intro jk hj
            exact hsome jk (hpres jk hj)
    all_goals {
      obtain ⟨db', hfold, hdata, htab, henu, hframe, hsome⟩ := ih db hrest
      refine ⟨db', ?_, hdata, htab, henu, ?_, hsome⟩
      · simpa [List.foldlM_cons, add_record_step, Bind.bind, Except.bind, pure, Except.pure]
          using hfold
      · intro jk hjk
        apply hframe
        simpa [mtmKeys, List.filterMap_cons] using hjk
    }

lemma fold_ne_tnf (tname : List Nat) (attrs : List (List Nat × Value)) :
    ∀ (fs : List (List Nat × FieldKind)) (db : Database),
      fs.foldlM (add_record_step tname attrs) db ≠ .error .tableNotFound := by
  intro fs
  induction fs with
  | nil => intro db h; simp [List.foldlM_nil, pure, Except.pure] at h
  | cons p rest ih =>
    obtain ⟨k0, fk0⟩ := p
    intro db h
    rw [List.foldlM_cons] at h
    cases hstep : add_record_step tname attrs db (k0, fk0) with
    | error e =>
      rw [hstep] at h
      simp only [Bind.bind, Except.bind, Except.error.injEq] at h
      subst h
      cases fk0 <;> try simp [add_record_step, pure, Except.pure] at hstep
      next tgt a =>
        exact upd_relation_err (by simpa [add_record_step] using hstep) rfl
    | ok db1 =>
      rw [hstep] at h
      simp only [Bind.bind, Except.bind] at h
      exact ih db1 h

lemma fold_mtm_entry (tname : List Nat) (attrs : List (List Nat × Value)) (idv : Value)
    (hid : dictGet attrs nId = some idv) (hrefl : pyEq idv idv = true) :
    ∀ (fs : List (List Nat × FieldKind)) (db : Database),
      mtmCondB db tname attrs fs = true →
      (mtmKeys tname fs).Nodup →
      ∀ (k : List Nat) (tgt : TargetRef) (a : FAttrs), (k, FieldKind.mtmF tgt a) ∈ fs →
      ∀ (m : List (Value × List Value)) (fa : Value) (items : List Value),
        dictGet db.relations (joinKey tname tgt) = some m →
        dictGet attrs k = some fa →
        pyIter fa = .ok items →
      ∀ db', fs.foldlM (add_record_step tname attrs) db = .ok db' →
        ∃ m', dictGet db'.relations (joinKey tname tgt) = some m' ∧
          pyDictGet m' idv = some ((pyDictGet m idv).getD [] ++ items) := by
  intro fs
  induction fs with
  | nil =>
    intro db _ _ k tgt a hmem
    simp at hmem
  | cons p rest ih =>
    obtain ⟨k0, fk0⟩ := p
    intro db hcond hnd k tgt a hmem m fa items hm hfa hit db' hfold
    simp only [mtmCondB, Bool.and_eq_true] at hcond
    obtain ⟨hhead, hrest⟩ := hcond
    rw [List.mem_cons] at hmem
    cases hmem with
    | inl heq =>
      injection heq with hk1 hk2
      subst hk1
      subst hk2
      have hstep : add_record_step tname attrs db (k, .mtmF tgt a) =
          .ok { db with relations :=
                  (dictSet db.relations (joinKey tname tgt)
                    (pyDictSet m idv ((pyDictGet m idv).getD [] ++ items))) } := by
        simp only [add_record_step]
        exact upd_relation_eq tname attrs db k tgt idv fa m items hid hm hfa hit
      rw [List.foldlM_cons, hstep] at hfold
      simp only [Bind.bind, Except.bind] at hfold
      simp only [mtmKeys, List.filterMap_cons] at hnd
      rw [List.nodup_cons] at hnd
      have hpres : ∀ jk, (dictGet db.relations jk).isSome →
          (dictGet (dictSet db.relations (joinKey tname tgt)
            (pyDictSet m idv ((pyDictGet m idv).getD [] ++ items))) jk).isSome := by
        intro jk hj
        rw [dictGet_dictSet]
        by_cases hjk : joinKey tname tgt = jk
        · simp [hjk]
        · simpa [hjk] using hj
      obtain ⟨db'', hfold'', _, _, _, hframe, _⟩ :=
        fold_mtm_spec tname attrs rest
          { db with relations :=
              (dictSet db.relations (joinKey tname tgt)
                (pyDictSet m idv ((pyDictGet m idv).getD [] ++ items))) }
          (mtmCondB_mono db _ tname attrs hpres rest hrest)
      rw [hfold] at hfold''
      injection hfold'' with hdb
      subst hdb
      refine ⟨pyDictSet m idv ((pyDictGet m idv).getD [] ++ items), ?_, ?_⟩
      · rw [hframe _ hnd.1]
        rw [dictGet_dictSet]
        simp
      · exact pyDictGet_pyDictSet_self m idv _ hrefl
    | inr hmem' =>
      cases fk0
      case mtmF tgt0 a0 =>
        simp only [Bool.and_eq_true] at hhead
        obtain ⟨⟨_, hm01⟩, hfa01⟩ := hhead
        obtain ⟨m0, hm0⟩ := Option.isSome_iff_exists.mp hm01
        cases hfa0 : dictGet attrs k0 with
        | none => rw [hfa0] at hfa01; simp at hfa01
        | some fa0 =>
          rw [hfa0] at hfa01
          replace hfa01 : isOkE (pyIter fa0) = true := hfa01
          cases hit0 : pyIter fa0 with
          | error e => rw [hit0] at hfa01; simp [isOkE] at hfa01
          | ok items0 =>
            have hstep : add_record_step tname attrs db (k0, .mtmF tgt0 a0) =
                .ok { db with relations :=
                        (dictSet db.relations (joinKey tname tgt0)
                          (pyDictSet m0 idv ((pyDictGet m0 idv).getD [] ++ items0))) } := by
              simp only [add_record_step]
              exact upd_relation_eq tname attrs db k0 tgt0 idv fa0 m0 items0 hid hm0 hfa0 hit0
            rw [List.foldlM_cons, hstep] at hfold
            simp only [Bind.bind, Except.bind] at hfold
            simp only [mtmKeys, List.filterMap_cons] at hnd
            rw [List.nodup_cons] at hnd
            have hne : joinKey tname tgt0 ≠ joinKey tname tgt := by
              intro hh
              exact hnd.1 (hh ▸ mem_mtmKeys hmem')
            have hpres : ∀ jk, (dictGet db.relations jk).isSome →
                (dictGet (dictSet db.relations (joinKey tname tgt0)
                  (pyDictSet m0 idv ((pyDictGet m0 idv).getD [] ++ items0))) jk).isSome := by
              intro jk hj
              rw [dictGet_dictSet]
              by_cases hjk : joinKey tname tgt0 = jk
              · simp [hjk]
              · simpa [hjk] using hj
            refine ih
              { db with relations :=
                  (dictSet db.relations (joinKey tname tgt0)
                    (pyDictSet m0 idv ((pyDictGet m0 idv).getD [] ++ items0))) }
              (mtmCondB_mono db _ tname attrs hpres rest hrest)
              hnd.2 k tgt a hmem' m fa items ?_ hfa hit db' hfold
            show dictGet (dictSet db.relations (joinKey tname tgt0) _) (joinKey tname tgt) = some m
            rw [dictGet_dictSet]
            simpa [hne] using hm
      all_goals {
        rw [List.foldlM_cons] at hfold
        replace hfold : rest.foldlM (add_record_step tname attrs) db = .ok db' := hfold
        simp only [mtmKeys, List.filterMap_cons] at hnd
        exact ih db hrest hnd k tgt a hmem' m fa items hm hfa hit db' hfold
      }

end SCSL

namespace SCSL

/-- C1: the round trip decode of encode does not succeed for every
database whose relation targets precede the referencing tables.  Already a
single table with one boolean field breaks it: the encoder writes True
with the integer tag (bool is an int subtype, so the isinstance int branch
wins), the decoder therefore returns the int 1, and the reconstructed
BooleanField rejects it with a type error, so deserialize raises instead
of returning an equal database. -/
theorem c1_roundtrip_bool_fails :
    (do
      let db ← dbBool
      let bs ← serialize_to_binary db
      deserialize_from_binary bs) = .error Err.typeMismatch := rfl

/-- C2: Database.get collapses its result by match count: with the table
registered and its record list present, if the criteria scan yields zero
records the call returns the None marker, if it yields exactly one record
the call returns that record itself, and with two or more it returns the
full matching list. -/
theorem c2_get_collapsing (db : Database) (tname : List Nat)
    (criteria : List (List Nat × Value)) (tfs : List (List Nat × FieldKind))
    (recs ms : List Value)
    (ht : dictGet db.tables tname = some tfs)
    (hd : dictGet db.data tname = some recs)
    (hm : filterMatches recs criteria = .ok ms) :
    (ms = [] → db.get tname criteria = .ok Value.vNone) ∧
    (∀ r, ms = [r] → db.get tname criteria = .ok r) ∧
    (2 ≤ ms.length → db.get tname criteria = .ok (Value.vList ms)) := by
  have hget : db.get tname criteria =
      (match ms with
       | [r] => Except.ok r
       | [] => Except.ok Value.vNone
       | _ => Except.ok (Value.vList ms)) := by
    unfold Database.get
    rw [ht, hd]
    simp only [Bind.bind, Except.bind, pure, Except.pure, hm]
    match ms with
    | [] => rfl
    | [r] => rfl
    | a :: b :: t => rfl
  refine ⟨fun h => ?_, fun r h => ?_, fun h => ?_⟩
  · subst h; exact hget
  · subst h; exact hget
  · match ms, h with
    | a :: b :: t, _ => exact hget

/-- C2 witness: on the concrete store with records named Bob, Bob and
Alice, a scan for Bob returns the two-record list, a scan for Alice
returns the single record itself, and a scan for the absent name T
returns the None marker. -/
theorem c2_get_collapsing_witness :
    Database.get dbScan nUser [(nName, Value.vStr nBob)] = .ok (Value.vList [recBob1, recBob2]) ∧
    Database.get dbScan nUser [(nName, Value.vStr nAlice)] = .ok recAlice ∧
    Database.get dbScan nUser [(nName, Value.vStr nT)] = .ok Value.vNone :=
  ⟨(c2_get_collapsing dbScan nUser [(nName, Value.vStr nBob)] userFields
      [recBob1, recBob2, recAlice] [recBob1, recBob2] rfl rfl rfl).2.2 (by decide),
   (c2_get_collapsing dbScan nUser [(nName, Value.vStr nAlice)] userFields
      [recBob1, recBob2, recAlice] [recAlice] rfl rfl rfl).2.1 recAlice rfl,
   (c2_get_collapsing dbScan nUser [(nName, Value.vStr nT)] userFields
      [recBob1, recBob2, recAlice] [] rfl rfl rfl).1 rfl⟩

/-- C3: the relation-map entry does not replace the prior entry on
re-insertion; it accumulates.  After inserting the Group record with
members the user id 1 once the entry is that single key; inserting the
same record again extends the entry to two copies of the key. -/
theorem c3_relation_entry_accumulates :
    (dbGroupOnce.map (fun db =>
      (dictGet db.relations (joinKey nGroup (.tClass nUser))).map
        (fun m => pyDictGet m (.vInt 1))) = .ok (some (some [Value.vInt 1]))) ∧
    (dbGroupTwice.map (fun db =>
      (dictGet db.relations (joinKey nGroup (.tClass nUser))).map
        (fun m => pyDictGet m (.vInt 1))) = .ok (some (some [Value.vInt 1, Value.vInt 1]))) :=
  ⟨rfl, rfl⟩

/-- C4: the cross-table decode scenario does not succeed.  Encoding the
User record (id 1, name A) and the Post record carrying a foreign key to
User id 1, with User data first, then decoding, crashes: the foreign key
was stored and encoded as the plain integer 1 (tag 2), but the decoder
unpacks the decoded value as a name-and-id pair, and unpacking an int
raises a type error before any resolution happens. -/
theorem c4_cross_table_decode_crashes :
    (do
      let db ← dbCross
      let bs ← serialize_to_binary db
      deserialize_from_binary bs) = .error Err.notIterable := rfl

/-- C5: with the Post data preceding the User data, decode does fail, but
not with an unresolved-target error: it raises the same unpacking type
error as the correctly ordered stream, before any target lookup is
attempted, so the failure is independent of the data-section order. -/
theorem c5_reversed_order_same_type_error :
    ((do
      let db ← dbCrossRev
      let bs ← serialize_to_binary db
      deserialize_from_binary bs) = .error Err.notIterable) ∧
    ((do
      let db ← dbCross
      let bs ← serialize_to_binary db
      deserialize_from_binary bs) = .error Err.notIterable) :=
  ⟨rfl, rfl⟩

/-- C6: registering a table under an already registered name raises no
error and does not leave the prior state unchanged: add_table silently
re-registers the name and resets its record sequence to empty.  Starting
from a database whose User table holds one record, re-adding the User
table yields a database whose User record list is empty while the table
remains registered. -/
theorem c6_reregistration_silent_reset :
    dbReg.map (fun db =>
      ((dictGet db.data nUser).map List.length,
       dictGet (add_table db nUser userFields).data nUser,
       (dictGet (add_table db nUser userFields).tables nUser).isSome))
      = .ok (some 1, some [], true) := rfl

/-- The executability condition only reads the relation component. -/
lemma mtmCondB_congr (db db2 : Database) (tname : List Nat) (attrs : List (List Nat × Value))
    (h : db2.relations = db.relations) :
    ∀ fs, mtmCondB db tname attrs fs = mtmCondB db2 tname attrs fs := by
  intro fs
  induction fs with
  | nil => rfl
  | cons p rest ih =>
    obtain ⟨k, fk⟩ := p
    cases fk <;> simp [mtmCondB, h, ih]

/-- C7: add_record raises the unknown-table error exactly when the table
name is not registered in the data map, and the check happens before any
mutation; otherwise, under the executability conditions of the relation
loop (record id present, relation keys present, field values iterable,
join keys distinct), it appends the record at the end of the table
sequence, leaves tables and enums untouched, and extends the relation-map
entry of every ManyToMany field of the record class with the stored
target keys. -/
theorem c7_add_record_spec (db : Database) (tname : List Nat) (r : Value) :
    ((add_record db tname r = .error Err.tableNotFound) ↔ dictGet db.data tname = none)
  ∧ (∀ recs tn fs attrs oid idv,
      dictGet db.data tname = some recs →
      r = .vObj tn fs attrs oid →
      dictGet attrs nId = some idv →
      pyEq idv idv = true →
      mtmCondB db tname attrs fs = true →
      (mtmKeys tname fs).Nodup →
      ∃ db', add_record db tname r = .ok db' ∧
        dictGet db'.data tname = some (recs ++ [r]) ∧
        db'.tables = db.tables ∧ db'.enums = db.enums ∧
        (∀ k tgt a, (k, FieldKind.mtmF tgt a) ∈ fs →
          ∀ m fa items,
            dictGet db.relations (joinKey tname tgt) = some m →
            dictGet attrs k = some fa →
            pyIter fa = .ok items →
            ∃ m', dictGet db'.relations (joinKey tname tgt) = some m' ∧
              pyDictGet m' idv = some ((pyDictGet m idv).getD [] ++ items))) := by
  constructor
  · constructor
    · intro herr
      cases hd : dictGet db.data tname with
      | none => rfl
      | some recs =>
        exfalso
        unfold add_record at herr
        rw [hd] at herr
        cases r <;>
          try simp [Value.objFields, Bind.bind, Except.bind, throw, throwThe,
            MonadExceptOf.throw] at herr
        next tn fs attrs oid =>
          simp only [Value.objFields, Value.objAttrs, Bind.bind, Except.bind,
            pure, Except.pure] at herr
          exact fold_ne_tnf tname attrs fs _ herr
    · intro hnone
      unfold add_record
      rw [hnone]
      rfl
  · intro recs tn fs attrs oid idv hd hr hid hrefl hcond hnd
    subst hr
    unfold add_record
    rw [hd]
    simp only [Value.objFields, Value.objAttrs, Bind.bind, Except.bind, pure, Except.pure]
    have hcond2 : mtmCondB
        { db with data := dictSet db.data tname (recs ++ [.vObj tn fs attrs oid]) }
        tname attrs fs = true := by
      rw [← mtmCondB_congr db
        { db with data := dictSet db.data tname (recs ++ [.vObj tn fs attrs oid]) }
        tname attrs rfl fs]
      exact hcond
    obtain ⟨db', hfold, hdata, htab, henu, hframe, hsome⟩ :=
      fold_mtm_spec tname attrs fs
        { db with data := dictSet db.data tname (recs ++ [.vObj tn fs attrs oid]) } hcond2
    refine ⟨db', hfold, ?_, htab, henu, ?_⟩
    · rw [hdata]
      show dictGet (dictSet db.data tname (recs ++ [.vObj tn fs attrs oid])) tname
        = some (recs ++ [.vObj tn fs attrs oid])
      rw [dictGet_dictSet]
      simp
    · intro k tgt a hmem m fa items hm hfa hit
      exact fold_mtm_entry tname attrs idv hid hrefl fs
        { db with data := dictSet db.data tname (recs ++ [.vObj tn fs attrs oid]) }
        hcond2 hnd k tgt a hmem m fa items hm hfa hit db' hfold

/-- C7 witness: inserting a concrete Group record with one member into
the registered store succeeds with the record appended and the relation
entry extended, while inserting into an empty database raises the
unknown-table error. -/
theorem c7_add_record_spec_witness :
    (∃ db', add_record dbGW nGroup recGW = .ok db' ∧
      dictGet db'.data nGroup = some ([] ++ [recGW]) ∧
      db'.tables = dbGW.tables ∧ db'.enums = dbGW.enums ∧
      (∀ k tgt a, (k, FieldKind.mtmF tgt a) ∈ groupFields →
        ∀ m fa items,
          dictGet dbGW.relations (joinKey nGroup tgt) = some m →
          dictGet gwAttrs k = some fa →
          pyIter fa = .ok items →
          ∃ m', dictGet db'.relations (joinKey nGroup tgt) = some m' ∧
            pyDictGet m' (.vInt 1) = some ((pyDictGet m (.vInt 1)).getD [] ++ items))) ∧
    add_record dbEmpty nGroup recGW = .error Err.tableNotFound :=
  ⟨(c7_add_record_spec dbGW nGroup recGW).2 [] nGroup groupFields gwAttrs 50 (.vInt 1)
      rfl rfl rfl (by decide) rfl (by decide),
   (c7_add_record_spec dbEmpty nGroup recGW).1.mpr rfl⟩

/-- C8 counterexample: a record assigned through the validation path to a
RelationField is stored as the record object itself, not as its
primary-key value: the stored value equals the supplied object and is not
the integer key 1. -/
theorem c8_relation_stores_object :
    assignField relUserField uObjC8 = .ok uObjC8 ∧ uObjC8 ≠ Value.vInt 1 :=
  ⟨rfl, fun h => Value.noConfusion h⟩

/-- C8 amended: only ForeignKey and ManyToMany fields store primary keys.
A successfully assigned ForeignKey value is never a record object; a
successfully assigned ManyToMany list is the element-wise coercion of its
input, each record element replaced by its id attribute; a RelationField
with a class target stores the supplied record object itself, unchanged,
and only accepts instances of the target table: a plain integer key is
rejected with a type error. -/
theorem c8_pk_storage_amended :
    (∀ tgt a v w, assignField (.fkF tgt a) v = .ok w → isObjV w = false)
  ∧ (∀ tgt a (xs : List Value) w, assignField (.mtmF tgt a) (.vList xs) = .ok w →
      ∃ ys, w = .vList ys ∧ List.Forall₂ (fun x y => coerceItem x = .ok y) xs ys)
  ∧ (∀ T rt a tn fs attrs oid w,
      assignField (.relationF (.tClass T) rt a) (.vObj tn fs attrs oid) = .ok w →
      w = .vObj tn fs attrs oid ∧ tn = T)
  ∧ (∀ T rt a (n : ℤ),
      assignField (.relationF (.tClass T) rt a) (.vInt n) = .error .typeMismatch) := by
  refine ⟨fun tgt a v w h => ?_, fun tgt a xs w h => ?_,
          fun T rt a tn fs attrs oid w h => ?_, fun T rt a n => rfl⟩
  · unfold assignField coerce_for_field at h
    simp only [Bind.bind, Except.bind] at h
    cases hc : coerceItem v with
    | error e => rw [hc] at h; simp at h
    | ok v1 =>
      rw [hc] at h
      have hw : w = v1 := field_validate_ok h
      subst hw
      have hb := field_validate_ok_base h
      rcases (base_validate_ok hb).2 with hn | ⟨t, ht, hi⟩
      · cases w <;> simp_all [isNoneV, isObjV]
      · have hti : t = .pInt := by
          simp only [fieldTypeOf, Except.ok.injEq] at ht
          exact ht.symm
        subst hti
        exact isInst_pInt_not_obj hi
  · unfold assignField coerce_for_field at h
    simp only [Bind.bind, Except.bind] at h
    have hiter : pyIter (Value.vList xs) = .ok xs := rfl
    rw [hiter] at h
    dsimp only at h
    cases hm : mapCoerce xs with
    | error e => rw [hm] at h; simp at h
    | ok ys =>
      rw [hm] at h
      simp only [pure, Except.pure] at h
      have hw : w = Value.vList ys := field_validate_ok h
      exact ⟨ys, hw, mapCoerce_forall2 hm⟩
  · unfold assignField coerce_for_field at h
    simp only [Bind.bind, Except.bind, pure, Except.pure] at h
    have hw : w = Value.vObj tn fs attrs oid := field_validate_ok h
    have hb := field_validate_ok_base h
    rcases (base_validate_ok hb).2 with hn | ⟨t, ht, hi⟩
    · simp [isNoneV] at hn
    · have hti : t = .pTable T := by
        simp only [fieldTypeOf, Except.ok.injEq] at ht
        exact ht.symm
      subst hti
      simp only [isInst] at hi
      exact ⟨hw, (eq_of_beq hi).symm⟩

/-- C8 witness: a record input to a ForeignKey assignment stores the
non-object key 1, a record element of a ManyToMany assignment is coerced
to its id, and a RelationField assignment stores the record object itself
while requiring its class to match. -/
theorem c8_pk_storage_amended_witness :
    isObjV (Value.vInt 1) = false ∧
    (∃ ys, (Value.vList [Value.vInt 1] : Value) = .vList ys ∧
      List.Forall₂ (fun x y => coerceItem x = .ok y) [uObjC8] ys) ∧
    (uObjC8 = .vObj nUser userFields [(nId, .vInt 1), (nName, .vStr nA)] 7 ∧ nUser = nUser) :=
  ⟨c8_pk_storage_amended.1 (.tClass nUser) dAttrs uObjC8 (.vInt 1) rfl,
   c8_pk_storage_amended.2.1 (.tClass nUser) dAttrs [uObjC8] (.vList [.vInt 1]) rfl,
   c8_pk_storage_amended.2.2.1 nUser .oneToOne dAttrs nUser userFields
     [(nId, .vInt 1), (nName, .vStr nA)] 7 uObjC8 rfl⟩

/-- C9: the encoder never emits tag 4 for a boolean value.  Python bool is
a subtype of int and the isinstance dispatch checks int first, so True is
written as tag 2 followed by an eight-byte int64 payload, and decoding
that encoding returns the int 1, not a boolean. -/
theorem c9_bool_encoded_as_int64 :
    encode_value (.vBool true) = .ok [2, 0, 0, 0, 0, 0, 0, 0, 1] ∧
    encode_value (.vBool false) = .ok [2, 0, 0, 0, 0, 0, 0, 0, 0] ∧
    decode_value 10 [2, 0, 0, 0, 0, 0, 0, 0, 1] = .ok (.vInt 1, []) :=
  ⟨rfl, rfl, rfl⟩

/-- C10: an IntegerField constructed without explicit bounds validates
with min 0 and max 2147483647, raising a range error below 0 or above the
max and returning the value unchanged inside the range; a FloatField
constructed without explicit bounds behaves the same against the doubles
0.0 and 2147483647.0, stated here through the exact rational value of the
float bit pattern. -/
theorem c10_default_bounds :
    ((∀ n : ℤ, n < 0 →
      field_validate IntegerFieldDefault (.vInt n) = .error .rangeError)
  ∧ (∀ n : ℤ, 2147483647 < n →
      field_validate IntegerFieldDefault (.vInt n) = .error .rangeError)
  ∧ (∀ n : ℤ, 0 ≤ n → n ≤ 2147483647 →
      field_validate IntegerFieldDefault (.vInt n) = .ok (.vInt n)))
  ∧ ((∀ bits (q : ℚ), fclassify bits = .fin q → q < 0 →
      field_validate FloatFieldDefault (.vFloat bits) = .error .rangeError)
  ∧ (∀ bits (q : ℚ), fclassify bits = .fin q → 2147483647 < q →
      field_validate FloatFieldDefault (.vFloat bits) = .error .rangeError)
  ∧ (∀ bits (q : ℚ), fclassify bits = .fin q → 0 ≤ q → q ≤ 2147483647 →
      field_validate FloatFieldDefault (.vFloat bits) = .ok (.vFloat bits))) := by
  refine ⟨⟨fun n hn => ?_, fun n hn => ?_, fun n h0 h1 => ?_⟩,
          ⟨fun bits q hfc hq => ?_, fun bits q hfc hq => ?_, fun bits q hfc h0 h1 => ?_⟩⟩
  · show (do checkIntBounds (some 0) (some 2147483647) n
             pure (Value.vInt n) : Except Err Value) = .error .rangeError
    simp only [checkIntBounds]
    rw [if_pos hn]
    rfl
  · show (do checkIntBounds (some 0) (some 2147483647) n
             pure (Value.vInt n) : Except Err Value) = .error .rangeError
    simp only [checkIntBounds]
    rw [if_neg (by omega), if_pos hn]
    rfl
  · show (do checkIntBounds (some 0) (some 2147483647) n
             pure (Value.vInt n) : Except Err Value) = .ok (.vInt n)
    simp only [checkIntBounds]
    rw [if_neg (by omega), if_neg (by omega)]
    rfl
  · have hz : fltLt bits f0bits = true := by
      unfold fltLt
      rw [hfc, fclassify_f0]
      exact decide_eq_true hq
    show (do checkFloatBounds (some f0bits) (some fMaxBits) bits
             pure (Value.vFloat bits) : Except Err Value) = .error .rangeError
    simp only [checkFloatBounds]
    rw [hz]
    rfl
  · have hz : fltLt bits f0bits = false := by
      unfold fltLt
      rw [hfc, fclassify_f0]
      exact decide_eq_false (not_lt.mpr (le_of_lt (lt_trans (by norm_num) hq)))
    have hm : fltLt fMaxBits bits = true := by
      unfold fltLt
      rw [hfc, fclassify_fMax]
      exact decide_eq_true hq
    show (do checkFloatBounds (some f0bits) (some fMaxBits) bits
             pure (Value.vFloat bits) : Except Err Value) = .error .rangeError
    simp only [checkFloatBounds]
    rw [hz, hm]
    rfl
  · have hz : fltLt bits f0bits = false := by
      unfold fltLt
      rw [hfc, fclassify_f0]
      exact decide_eq_false (not_lt.mpr h0)
    have hm : fltLt fMaxBits bits = false := by
      unfold fltLt
      rw [hfc, fclassify_fMax]
      exact decide_eq_false (not_lt.mpr h1)
    show (do checkFloatBounds (some f0bits) (some fMaxBits) bits
             pure (Value.vFloat bits) : Except Err Value) = .ok (.vFloat bits)
    simp only [checkFloatBounds]
    rw [hz, hm]
    rfl

/-- C10 witness: concrete evaluations of the bound checks through the
theorem, at -1, 2147483648 and 2147483647 for the integer field and at
the doubles -1.0 and 2147483647.0 for the float field. -/
theorem c10_default_bounds_witness :
    field_validate IntegerFieldDefault (.vInt (-1)) = .error .rangeError ∧
    field_validate IntegerFieldDefault (.vInt 2147483648) = .error .rangeError ∧
    field_validate IntegerFieldDefault (.vInt 2147483647) = .ok (.vInt 2147483647) ∧
    field_validate FloatFieldDefault (.vFloat 0xBFF0000000000000) = .error .rangeError ∧
    field_validate FloatFieldDefault (.vFloat fMaxBits) = .ok (.vFloat fMaxBits) :=
  ⟨c10_default_bounds.1.1 (-1) (by decide),
   c10_default_bounds.1.2.1 2147483648 (by decide),
   c10_default_bounds.1.2.2 2147483647 (by decide) (by decide),
   c10_default_bounds.2.1 0xBFF0000000000000 (-1) fclassify_neg1 (by decide),
   c10_default_bounds.2.2.2 fMaxBits 2147483647 fclassify_fMax (by decide) (by decide)⟩

end SCSL
